import Mathlib

/-!
# Verification of the askless session-messenger server core

Shallow embedding of the connection registry, invitation store, conversation
store, message router and expiry sweeper of `src/server.js`, together with
proofs of the specified properties.

Modelling conventions:

* JavaScript `Map` objects (`clients`, `invitations`, `messages`) become
  association lists with `Map` semantics: `mapSet` on an existing key updates
  the value in place (keeping its iteration position), on a fresh key appends;
  iteration order is insertion order, exactly as for a JS `Map`.
* Connection handles (`ws` objects) become `Nat` identifiers.  A handle that
  is present in the registry is treated as open (`readyState === OPEN`); the
  model has no half-open connections.
* Timestamps are milliseconds as `Nat`.  The server stores ISO-8601 strings
  and compares them after re-parsing (`new Date(inv.expiresAt) < now`); the
  round-trip is monotone, so `Nat` comparison is faithful.  The truthiness
  guard `invitation.expiresAt &&` is always true for an ISO string, so it is
  dropped.
* Outbound traffic of a handler is split into `broadcasts` — events routed by
  `broadcastToUser`, which delivers only when the target session is registered
  — and `replies` — frames written directly to the calling connection
  (`ws.send`, used only for error reports).
* `sha256` is the FIPS 180-4 algorithm over `Nat` words reduced mod `2^32`,
  as invoked by Node's `crypto.createHash('sha256')`; strings hash through
  their UTF-8 bytes, matching `hash.update(string)`'s default encoding.
-/

namespace Askless

/-! ## SHA-256 (FIPS 180-4), as used by `generateConversationId` -/

/-- Word size: all SHA-256 arithmetic is modulo `2 ^ 32`. -/
def w32 : Nat := 2 ^ 32

/-- Addition modulo `2 ^ 32`. -/
def add32 (a b : Nat) : Nat := (a + b) % w32

/-- Right rotation of a 32-bit word by `n` places. -/
def rotr32 (n x : Nat) : Nat := ((x >>> n) ||| (x <<< (32 - n))) % w32

/-- Bitwise complement of a 32-bit word. -/
def not32 (x : Nat) : Nat := 0xffffffff ^^^ x

/-- SHA-256 `Ch` function. -/
def ch32 (x y z : Nat) : Nat := (x &&& y) ^^^ (not32 x &&& z)

/-- SHA-256 `Maj` function. -/
def maj32 (x y z : Nat) : Nat := (x &&& y) ^^^ (x &&& z) ^^^ (y &&& z)

/-- SHA-256 big sigma-0. -/
def bsig0 (x : Nat) : Nat := rotr32 2 x ^^^ rotr32 13 x ^^^ rotr32 22 x

/-- SHA-256 big sigma-1. -/
def bsig1 (x : Nat) : Nat := rotr32 6 x ^^^ rotr32 11 x ^^^ rotr32 25 x

/-- SHA-256 small sigma-0. -/
def ssig0 (x : Nat) : Nat := rotr32 7 x ^^^ rotr32 18 x ^^^ (x >>> 3)

/-- SHA-256 small sigma-1. -/
def ssig1 (x : Nat) : Nat := rotr32 17 x ^^^ rotr32 19 x ^^^ (x >>> 10)

/-- The 64 SHA-256 round constants (FIPS 180-4 §4.2.2), in decimal. -/
def shaK : List Nat :=
  [1116352408, 1899447441, 3049323471, 3921009573, 961987163,
   1508970993, 2453635748, 2870763221, 3624381080, 310598401,
   607225278, 1426881987, 1925078388, 2162078206, 2614888103,
   3248222580, 3835390401, 4022224774, 264347078, 604807628,
   770255983, 1249150122, 1555081692, 1996064986, 2554220882,
   2821834349, 2952996808, 3210313671, 3336571891, 3584528711,
   113926993, 338241895, 666307205, 773529912, 1294757372,
   1396182291, 1695183700, 1986661051, 2177026350, 2456956037,
   2730485921, 2820302411, 3259730800, 3345764771, 3516065817,
   3600352804, 4094571909, 275423344, 430227734, 506948616,
   659060556, 883997877, 958139571, 1322822218, 1537002063,
   1747873779, 1955562222, 2024104815, 2227730452, 2361852424,
   2428436474, 2756734187, 3204031479, 3329325298]

/-- The initial SHA-256 hash state (FIPS 180-4 §5.3.3), in decimal. -/
def shaH0 : List Nat :=
  [1779033703, 3144134277, 1013904242, 2773480762,
   1359893119, 2600822924, 528734635, 1541459225]

/-- Big-endian byte expansion of `x` into `n` bytes. -/
def bytesBE : Nat → Nat → List Nat
  | 0, _ => []
  | n + 1, x => bytesBE n (x / 256) ++ [x % 256]

/-- SHA-256 padding: append `0x80`, zero bytes to 56 mod 64, then the
bit length as 8 big-endian bytes. -/
def padMessage (ms : List Nat) : List Nat :=
  let l := ms.length
  let k := (120 - (l + 1) % 64) % 64
  ms ++ [0x80] ++ List.replicate k 0 ++ bytesBE 8 (8 * l)

/-- Split a byte list into 64-byte chunks (fueled structural recursion). -/
def chunksGo : Nat → List Nat → List (List Nat)
  | 0, _ => []
  | _, [] => []
  | fuel + 1, l => l.take 64 :: chunksGo fuel (l.drop 64)

/-- Split a byte list into 64-byte chunks. -/
def chunks64 (l : List Nat) : List (List Nat) := chunksGo l.length l

/-- Group bytes into big-endian 32-bit words. -/
def wordsOfChunk : List Nat → List Nat
  | b0 :: b1 :: b2 :: b3 :: rest =>
      (((b0 * 256 + b1) * 256 + b2) * 256 + b3) :: wordsOfChunk rest
  | _ => []

/-- One message-schedule extension step: append `W[t]` computed from
`W[t-2]`, `W[t-7]`, `W[t-15]`, `W[t-16]`. -/
def schedStep (w : List Nat) : List Nat :=
  let t := w.length
  w ++ [add32 (add32 (ssig1 (w.getD (t - 2) 0)) (w.getD (t - 7) 0))
              (add32 (ssig0 (w.getD (t - 15) 0)) (w.getD (t - 16) 0))]

/-- Iterate the schedule extension. -/
def scheduleAux : Nat → List Nat → List Nat
  | 0, w => w
  | n + 1, w => scheduleAux n (schedStep w)

/-- The full 64-word message schedule from the 16 chunk words. -/
def schedule (w16 : List Nat) : List Nat := scheduleAux 48 w16

/-- One SHA-256 compression round on the 8-word working state. -/
def shaRound (kt wt : Nat) (s : List Nat) : List Nat :=
  match s with
  | [a, b, c, d, e, f, g, h] =>
      let t1 := add32 (add32 (add32 h (bsig1 e)) (add32 (ch32 e f g) kt)) wt
      let t2 := add32 (bsig0 a) (maj32 a b c)
      [add32 t1 t2, a, b, c, add32 d t1, e, f, g]
  | _ => s

/-- Run the 64 compression rounds over the round constants and schedule. -/
def shaRounds : List Nat → List Nat → List Nat → List Nat
  | [], _, s => s
  | _, [], s => s
  | kt :: ks, wt :: ws, s => shaRounds ks ws (shaRound kt wt s)

/-- Process one 64-byte chunk: compress and add into the hash state. -/
def processChunk (h : List Nat) (chunk : List Nat) : List Nat :=
  List.zipWith add32 h (shaRounds shaK (schedule (wordsOfChunk chunk)) h)

/-- SHA-256 of a byte list, as the 32 digest bytes. -/
def sha256 (ms : List Nat) : List Nat :=
  (((chunks64 (padMessage ms)).foldl processChunk shaH0).map (bytesBE 4)).flatten

/-- Lower-case hex digit for a value below 16. -/
def hexDigit (n : Nat) : Char :=
  if n < 10 then Char.ofNat (48 + n) else Char.ofNat (87 + n)

/-- Two-character lower-case hex rendering of one byte. -/
def byteHex (b : Nat) : String :=
  String.mk [hexDigit (b / 16), hexDigit (b % 16)]

/-- Lower-case hex rendering of a byte list, as `digest('hex')` yields. -/
def toHex (bs : List Nat) : String := String.join (bs.map byteHex)

/-- UTF-8 bytes of a string, as `hash.update(string)` consumes. -/
def strBytes (s : String) : List Nat := s.toUTF8.toList.map (fun b => b.toNat)

/-! ## Conversation-ID deriver (`generateConversationId`, server.js:51-54) -/

/-- `[sessionId1, sessionId2].sort()`: the default JS sort comparator swaps
the two elements exactly when the first compares greater than the second. -/
def sortPair (a b : String) : String × String :=
  if b < a then (b, a) else (a, b)

/-- `generateConversationId` (server.js:51-54): hex SHA-256 digest of the
lexicographically sorted pair, concatenated (`sorted.join('')`). -/
def generateConversationId (sessionId1 sessionId2 : String) : String :=
  toHex (sha256 (strBytes ((sortPair sessionId1 sessionId2).1 ++
                           (sortPair sessionId1 sessionId2).2)))

theorem sortPair_comm (a b : String) : sortPair a b = sortPair b a := by
  unfold sortPair
  rcases lt_trichotomy a b with h | h | h
  · rw [if_neg (asymm h), if_pos h]
  · subst h
    rw [if_neg (lt_irrefl a)]
  · rw [if_pos h, if_neg (asymm h)]

theorem generateConversationId_comm (a b : String) :
    generateConversationId a b = generateConversationId b a := by
  unfold generateConversationId
  rw [sortPair_comm]

/-- C1: `generateConversationId` is symmetric in its two session identifiers,
and deterministic — as a pure function of the sorted concatenated pair fed
through SHA-256, repeated calls on the same inputs agree. -/
theorem C1_generateConversationId_symm_det (a b : String) :
    generateConversationId a b = generateConversationId b a ∧
    generateConversationId a b = generateConversationId a b :=
  ⟨generateConversationId_comm a b, rfl⟩

/-! ## Data model (server.js:24-48) -/

/-- Invitation status, one of the four string constants the server stores. -/
inductive InvStatus
  | pending
  | accepted
  | declined
  | expired
deriving DecidableEq, Repr

/-- Message delivery status: `'sent'` on creation, `'read'` after a read
acknowledgment. -/
inductive MsgStatus
  | sent
  | read
deriving DecidableEq, Repr

/-- An invitation record as built by `handleInvitationSend`
(server.js:196-206). -/
structure Invitation where
  id : String
  senderId : String
  senderName : String
  recipientId : String
  message : String
  status : InvStatus
  createdAt : Nat
  expiresAt : Nat
  metadata : Option String
deriving DecidableEq, Repr

/-- A message record as built by `handleMessageSend` (server.js:273-285). -/
structure Message where
  id : String
  senderId : String
  recipientId : String
  content : String
  messageType : String
  timestamp : Nat
  status : MsgStatus
  isOutgoing : Bool
  metadata : Option String
  replyToId : Option String
  mentions : Option (List String)
deriving DecidableEq, Repr

/-- Outbound frames (server.js event `type`/`data` pairs). -/
inductive SEvent
  | pong
  | errorEv (message : String)
  | invitationReceived (inv : Invitation)
  | invitationResponse (inv : Invitation)
  | messageReceived (m : Message)
  | messageStatus (messageId : String) (status : MsgStatus)
  | typingIndicator (sessionId : Option String) (isTyping : Bool)
  | contactOnline (sessionId : String)
  | contactOffline (sessionId : String)
deriving DecidableEq, Repr

/-! ## JS `Map` semantics over association lists -/

/-- `Map.get`: value of the first (in a well-formed map, only) binding. -/
def mapGet {α : Type} (m : List (String × α)) (k : String) : Option α :=
  match m with
  | [] => none
  | (k', v) :: rest => if k' = k then some v else mapGet rest k

/-- `Map.has`. -/
def mapHas {α : Type} (m : List (String × α)) (k : String) : Bool :=
  (mapGet m k).isSome

/-- `Map.set`: update in place when the key exists (keeping its iteration
position), append when it is fresh — JS `Map` insertion-order semantics. -/
def mapSet {α : Type} (m : List (String × α)) (k : String) (v : α) :
    List (String × α) :=
  match m with
  | [] => [(k, v)]
  | (k', v') :: rest =>
      if k' = k then (k, v) :: rest else (k', v') :: mapSet rest k v

/-- `Map.delete`: remove the binding for `k`. -/
def mapDelete {α : Type} (m : List (String × α)) (k : String) :
    List (String × α) :=
  match m with
  | [] => []
  | (k', v') :: rest =>
      if k' = k then rest else (k', v') :: mapDelete rest k

/-- `Array.from(m.keys())`: keys in iteration order. -/
def mapKeys {α : Type} (m : List (String × α)) : List String :=
  m.map Prod.fst

/-- The three global in-memory stores (server.js:25-27): session registry
(`clients`), invitation store, conversation store. -/
structure ServerState where
  clients : List (String × Nat)
  invitations : List (String × Invitation)
  messages : List (String × List Message)
deriving DecidableEq, Repr

/-- Result of one inbound-event handler: next state, session-routed
broadcasts, and frames written straight back to the calling connection. -/
structure HandlerOut where
  state : ServerState
  broadcasts : List (String × SEvent)
  replies : List SEvent
deriving DecidableEq, Repr

/-- `broadcastToUser` (server.js:56-61): deliver to the session's registered
connection, silently dropping when the session is not registered. -/
def broadcastToUser (clients : List (String × Nat)) (sessionId : String)
    (ev : SEvent) : List (String × SEvent) :=
  if mapHas clients sessionId then [(sessionId, ev)] else []

/-- `broadcastToUsers` (server.js:63-65): one `broadcastToUser` per id. -/
def broadcastToUsers (clients : List (String × Nat)) (ids : List String)
    (ev : SEvent) : List (String × SEvent) :=
  match ids with
  | [] => []
  | i :: rest => broadcastToUser clients i ev ++ broadcastToUsers clients rest ev

/-! ## Handlers (server.js:162-345) and the sweeper (server.js:349-368) -/

/-- `handleAuth` (server.js:163-192): reject a missing session id with an
`error` reply; otherwise register the connection (last-write-wins) and fan
`contact_online` out to every registered session — the fresh registration
included in the scan — whose conversation bucket with this session exists. -/
def handleAuth (st : ServerState) (ws : Nat) (sessionId : String) :
    HandlerOut :=
  if sessionId = "" then
    ⟨st, [], [SEvent.errorEv "Session ID is required"]⟩
  else
    let clients' := mapSet st.clients sessionId ws
    let contacts := (mapKeys clients').filter
      (fun k => mapHas st.messages (generateConversationId sessionId k))
    ⟨{ st with clients := clients' },
     broadcastToUsers clients' contacts (SEvent.contactOnline sessionId), []⟩

/-- The `ws.on('close')` handler (server.js:135-154): for an authenticated
connection, drop its registry entry, then fan `contact_offline` out to every
still-registered session whose conversation bucket with it exists. -/
def handleClose (st : ServerState) (currentSessionId : Option String) :
    ServerState × List (String × SEvent) :=
  match currentSessionId with
  | none => (st, [])
  | some sid =>
      let clients' := mapDelete st.clients sid
      let contacts := (mapKeys clients').filter
        (fun k => mapHas st.messages (generateConversationId sid k))
      ({ st with clients := clients' },
       broadcastToUsers clients' contacts (SEvent.contactOffline sid))

/-- Payload of an `invitation_send` event. -/
structure InvitationSendData where
  id : String
  senderId : String
  senderName : String
  recipientId : String
  message : String
  metadata : Option String
deriving DecidableEq, Repr

/-- The invitation record `handleInvitationSend` builds (server.js:196-206):
status `pending`, expiry `now + ttl` (`INVITATION_EXPIRY`). -/
def builtInvitation (ttl : Nat) (now : Nat) (d : InvitationSendData) :
    Invitation :=
  { id := d.id, senderId := d.senderId, senderName := d.senderName,
    recipientId := d.recipientId, message := d.message,
    status := InvStatus.pending, createdAt := now, expiresAt := now + ttl,
    metadata := d.metadata }

/-- `handleInvitationSend` (server.js:195-217): unconditionally store the
fresh record under its id and send `invitation_received` to the recipient —
no duplicate-id check, no error path. -/
def handleInvitationSend (ttl : Nat) (st : ServerState) (now : Nat)
    (d : InvitationSendData) : HandlerOut :=
  let inv := builtInvitation ttl now d
  ⟨{ st with invitations := mapSet st.invitations inv.id inv },
   broadcastToUser st.clients inv.recipientId (SEvent.invitationReceived inv),
   []⟩

/-- `handleInvitationAccept` (server.js:220-243): unknown id → `error` reply;
otherwise set status `accepted` (whatever the current status is) and notify
the sender with `invitation_response`. -/
def handleInvitationAccept (st : ServerState) (invitationId : String) :
    HandlerOut :=
  match mapGet st.invitations invitationId with
  | none => ⟨st, [], [SEvent.errorEv "Invitation not found"]⟩
  | some inv =>
      let inv' := { inv with status := InvStatus.accepted }
      ⟨{ st with invitations := mapSet st.invitations invitationId inv' },
       broadcastToUser st.clients inv'.senderId (SEvent.invitationResponse inv'),
       []⟩

/-- `handleInvitationDecline` (server.js:246-269): as accept, with status
`declined`. -/
def handleInvitationDecline (st : ServerState) (invitationId : String) :
    HandlerOut :=
  match mapGet st.invitations invitationId with
  | none => ⟨st, [], [SEvent.errorEv "Invitation not found"]⟩
  | some inv =>
      let inv' := { inv with status := InvStatus.declined }
      ⟨{ st with invitations := mapSet st.invitations invitationId inv' },
       broadcastToUser st.clients inv'.senderId (SEvent.invitationResponse inv'),
       []⟩

/-- Payload of a `message_send` event. -/
structure MessageSendData where
  id : String
  senderId : String
  recipientId : String
  content : String
  messageType : Option String
  metadata : Option String
  replyToId : Option String
  mentions : Option (List String)
deriving DecidableEq, Repr

/-- The message record `handleMessageSend` builds (server.js:273-285):
status `sent`, type defaulting to `text`, `isOutgoing` false. -/
def builtMessage (now : Nat) (d : MessageSendData) : Message :=
  { id := d.id, senderId := d.senderId, recipientId := d.recipientId,
    content := d.content, messageType := d.messageType.getD "text",
    timestamp := now, status := MsgStatus.sent, isOutgoing := false,
    metadata := d.metadata, replyToId := d.replyToId, mentions := d.mentions }

/-- `handleMessageSend` (server.js:272-302): append the built message to the
conversation keyed by the derived id (creating the bucket when absent) and
send `message_received` to the recipient only. -/
def handleMessageSend (st : ServerState) (now : Nat) (d : MessageSendData) :
    HandlerOut :=
  let m := builtMessage now d
  let cid := generateConversationId m.senderId m.recipientId
  ⟨{ st with messages := mapSet st.messages cid ((mapGet st.messages cid).getD [] ++ [m]) },
   broadcastToUser st.clients m.recipientId (SEvent.messageReceived m), []⟩

/-- `findIndex(msg => msg.id === messageId)` on one conversation, returning
the first matching index and message. -/
def findIdxMsg (mid : String) : List Message → Option (Nat × Message)
  | [] => none
  | m :: ms =>
      if m.id = mid then some (0, m)
      else (findIdxMsg mid ms).map (fun p => (p.1 + 1, p.2))

/-- The conversation-store update of `handleMessageRead` (server.js:325-342):
in the first conversation, in iteration order, containing a message with the
given id, set that message's status to `read`; later conversations are left
untouched (`break`). -/
def markReadStore (mid : String) : List (String × List Message) →
    List (String × List Message)
  | [] => []
  | (cid, msgs) :: rest =>
      match findIdxMsg mid msgs with
      | some (i, m) => (cid, msgs.set i { m with status := MsgStatus.read }) :: rest
      | none => (cid, msgs) :: markReadStore mid rest

/-- The first message, across conversations in iteration order, whose id
matches — the record `handleMessageRead` reads back after mutating it. -/
def foundMsgOrig (mid : String) : List (String × List Message) → Option Message
  | [] => none
  | (_, msgs) :: rest =>
      match findIdxMsg mid msgs with
      | some (_, m) => some m
      | none => foundMsgOrig mid rest

/-- `handleMessageRead` (server.js:321-345): linear scan for the first
message with the given id; when found, mark it `read` and send
`message_status` to its sender; when nothing matches, no event and no error
— silent absorption. -/
def handleMessageRead (st : ServerState) (mid : String) : HandlerOut :=
  let st' := { st with messages := markReadStore mid st.messages }
  match foundMsgOrig mid st.messages with
  | some m =>
      ⟨st', broadcastToUser st.clients m.senderId
              (SEvent.messageStatus mid MsgStatus.read), []⟩
  | none => ⟨st', [], []⟩

/-- One sweeper entry (server.js:351-366): any invitation whose expiry is
strictly before `now` — with no check of its current status — is set to
`expired` and `invitation_response` is sent to sender and recipient. -/
def sweepEntry (clients : List (String × Nat)) (now : Nat)
    (e : String × Invitation) : (String × Invitation) × List (String × SEvent) :=
  if e.2.expiresAt < now then
    let inv' := { e.2 with status := InvStatus.expired }
    ((e.1, inv'),
     broadcastToUser clients inv'.senderId (SEvent.invitationResponse inv') ++
     broadcastToUser clients inv'.recipientId (SEvent.invitationResponse inv'))
  else ((e.1, e.2), [])

/-- The invitation store after one sweeper tick. -/
def sweepInvs (clients : List (String × Nat)) (now : Nat) :
    List (String × Invitation) → List (String × Invitation)
  | [] => []
  | e :: rest => (sweepEntry clients now e).1 :: sweepInvs clients now rest

/-- The events one sweeper tick emits, in iteration order. -/
def sweepEvents (clients : List (String × Nat)) (now : Nat) :
    List (String × Invitation) → List (String × SEvent)
  | [] => []
  | e :: rest => (sweepEntry clients now e).2 ++ sweepEvents clients now rest

/-- One tick of the expiry sweeper `setInterval` (server.js:349-368). -/
def handleSweep (st : ServerState) (now : Nat) :
    ServerState × List (String × SEvent) :=
  ({ st with invitations := sweepInvs st.clients now st.invitations },
   sweepEvents st.clients now st.invitations)

/-- The invitation-store operations claim C2 ranges over. -/
inductive InvOp
  | accept (invitationId : String)
  | decline (invitationId : String)
  | sweep (now : Nat)
deriving DecidableEq, Repr

/-- State transition of one invitation-store operation. -/
def applyInvOp (st : ServerState) : InvOp → ServerState
  | InvOp.accept i => (handleInvitationAccept st i).state
  | InvOp.decline i => (handleInvitationDecline st i).state
  | InvOp.sweep now => (handleSweep st now).1

/-- State after a sequence of invitation-store operations, applied in
order. -/
def applyInvOps (st : ServerState) (ops : List InvOp) : ServerState :=
  ops.foldl applyInvOp st

/-! ## Map lemmas -/

theorem mapKeys_nil {α : Type} : mapKeys ([] : List (String × α)) = [] := rfl

theorem mapKeys_cons {α : Type} (k : String) (v : α) (tl : List (String × α)) :
    mapKeys ((k, v) :: tl) = k :: mapKeys tl := rfl

theorem mapGet_mapSet_self {α : Type} (m : List (String × α)) (k : String)
    (v : α) : mapGet (mapSet m k v) k = some v := by
  induction m with
  | nil => simp [mapSet, mapGet]
  | cons hd tl ih =>
      obtain ⟨k', v'⟩ := hd
      by_cases h : k' = k
      · simp [mapSet, mapGet, h]
      · simp [mapSet, mapGet, h, ih]

theorem mapGet_mapSet_ne {α : Type} (m : List (String × α)) (k k' : String)
    (v : α) (h : k' ≠ k) : mapGet (mapSet m k v) k' = mapGet m k' := by
  induction m with
  | nil =>
      simp only [mapSet, mapGet]
      rw [if_neg (Ne.symm h)]
  | cons hd tl ih =>
      obtain ⟨k0, v0⟩ := hd
      by_cases h0 : k0 = k
      · subst h0
        simp only [mapSet, if_pos rfl, mapGet]
        rw [if_neg (Ne.symm h), if_neg (Ne.symm h)]
      · simp only [mapSet, if_neg h0, mapGet]
        by_cases h1 : k0 = k'
        · rw [if_pos h1, if_pos h1]
        · rw [if_neg h1, if_neg h1, ih]

theorem mem_keys_of_mapGet {α : Type} {m : List (String × α)} {k : String}
    {v : α} (h : mapGet m k = some v) : k ∈ mapKeys m := by
  induction m with
  | nil => simp [mapGet] at h
  | cons hd tl ih =>
      obtain ⟨k0, v0⟩ := hd
      rw [mapKeys_cons, List.mem_cons]
      by_cases h0 : k0 = k
      · exact Or.inl h0.symm
      · simp only [mapGet, if_neg h0] at h
        exact Or.inr (ih h)

theorem mapGet_eq_none_of_not_mem {α : Type} {m : List (String × α)}
    {k : String} (h : k ∉ mapKeys m) : mapGet m k = none := by
  induction m with
  | nil => rfl
  | cons hd tl ih =>
      obtain ⟨k0, v0⟩ := hd
      rw [mapKeys_cons, List.mem_cons] at h
      push_neg at h
      simp only [mapGet]
      rw [if_neg (Ne.symm h.1)]
      exact ih h.2

theorem mapHas_of_mem_keys {α : Type} {m : List (String × α)} {k : String}
    (h : k ∈ mapKeys m) : mapHas m k = true := by
  induction m with
  | nil => simp [mapKeys_nil] at h
  | cons hd tl ih =>
      obtain ⟨k0, v0⟩ := hd
      rw [mapKeys_cons, List.mem_cons] at h
      simp only [mapHas, mapGet]
      by_cases h0 : k0 = k
      · rw [if_pos h0]
        rfl
      · rw [if_neg h0]
        rcases h with h | h
        · exact absurd h.symm h0
        · simpa [mapHas] using ih h

theorem mem_keys_mapSet {α : Type} (m : List (String × α)) (k a : String)
    (v : α) : a ∈ mapKeys (mapSet m k v) ↔ a ∈ mapKeys m ∨ a = k := by
  induction m with
  | nil =>
      simp only [mapSet, mapKeys_cons, mapKeys_nil, List.mem_cons,
        List.not_mem_nil]
      tauto
  | cons hd tl ih =>
      obtain ⟨k0, v0⟩ := hd
      by_cases h0 : k0 = k
      · subst h0
        simp [mapSet, mapKeys_cons, List.mem_cons]
        tauto
      · simp only [mapSet, if_neg h0, mapKeys_cons, List.mem_cons, ih]
        tauto

theorem keys_nodup_mapSet {α : Type} (m : List (String × α)) (k : String)
    (v : α) (h : (mapKeys m).Nodup) : (mapKeys (mapSet m k v)).Nodup := by
  induction m with
  | nil => simp [mapSet, mapKeys_cons, mapKeys_nil]
  | cons hd tl ih =>
      obtain ⟨k0, v0⟩ := hd
      rw [mapKeys_cons, List.nodup_cons] at h
      by_cases h0 : k0 = k
      · subst h0
        simpa [mapSet, mapKeys_cons, List.nodup_cons] using h
      · simp only [mapSet, if_neg h0, mapKeys_cons, List.nodup_cons]
        refine ⟨?_, ih h.2⟩
        intro hmem
        rcases (mem_keys_mapSet tl k k0 v).mp hmem with hm | hm
        · exact h.1 hm
        · exact h0 hm

theorem keys_mapDelete_sublist {α : Type} (m : List (String × α))
    (k : String) : (mapKeys (mapDelete m k)).Sublist (mapKeys m) := by
  induction m with
  | nil => simp [mapDelete, mapKeys_nil]
  | cons hd tl ih =>
      obtain ⟨k0, v0⟩ := hd
      by_cases h0 : k0 = k
      · simp only [mapDelete, if_pos h0, mapKeys_cons]
        exact (List.Sublist.refl _).cons k0
      · simp only [mapDelete, if_neg h0, mapKeys_cons]
        exact ih.cons₂ k0

theorem keys_nodup_mapDelete {α : Type} (m : List (String × α)) (k : String)
    (h : (mapKeys m).Nodup) : (mapKeys (mapDelete m k)).Nodup :=
  h.sublist (keys_mapDelete_sublist m k)

theorem mapGet_mapDelete_self {α : Type} (m : List (String × α)) (k : String)
    (h : (mapKeys m).Nodup) : mapGet (mapDelete m k) k = none := by
  induction m with
  | nil => rfl
  | cons hd tl ih =>
      obtain ⟨k0, v0⟩ := hd
      rw [mapKeys_cons, List.nodup_cons] at h
      by_cases h0 : k0 = k
      · simp only [mapDelete, if_pos h0]
        exact mapGet_eq_none_of_not_mem (h0 ▸ h.1)
      · simp only [mapDelete, if_neg h0, mapGet]
        exact ih h.2

/-! ## Claim C2: invitation status transitions -/

theorem mapGet_sweepInvs (clients : List (String × Nat)) (now : Nat)
    (l : List (String × Invitation)) (i : String) :
    mapGet (sweepInvs clients now l) i =
      (mapGet l i).map (fun inv =>
        if inv.expiresAt < now then { inv with status := InvStatus.expired }
        else inv) := by
  induction l with
  | nil => rfl
  | cons hd tl ih =>
      obtain ⟨k0, inv0⟩ := hd
      by_cases h0 : k0 = i
      · by_cases hexp : inv0.expiresAt < now
        · simp [sweepInvs, sweepEntry, mapGet, h0, hexp]
        · simp [sweepInvs, sweepEntry, mapGet, h0, hexp]
      · by_cases hexp : inv0.expiresAt < now
        · simp [sweepInvs, sweepEntry, mapGet, h0, hexp, ih]
        · simp [sweepInvs, sweepEntry, mapGet, h0, hexp, ih]

/-- One invitation-store operation keeps every stored invitation present,
and the record it leaves behind can have status `pending` only when the
record already had it: accept writes `accepted`, decline writes `declined`,
and a sweep either rewrites the record with `expired` or leaves it alone. -/
theorem applyInvOp_presence_step (st : ServerState) (op : InvOp) (i : String)
    (inv : Invitation) (h : mapGet st.invitations i = some inv) :
    ∃ inv', mapGet (applyInvOp st op).invitations i = some inv' ∧
      (inv'.status = InvStatus.pending → inv.status = InvStatus.pending) := by
  cases op with
  | accept j =>
      simp only [applyInvOp, handleInvitationAccept]
      cases hj : mapGet st.invitations j with
      | none => exact ⟨inv, h, fun hp => hp⟩
      | some invj =>
          by_cases hij : i = j
          · subst hij
            rw [h] at hj
            simp only [Option.some.injEq] at hj
            subst hj
            refine ⟨{ inv with status := InvStatus.accepted },
              mapGet_mapSet_self st.invitations i _, ?_⟩
            intro hp
            simp at hp
          · exact ⟨inv, by rw [mapGet_mapSet_ne _ _ _ _ hij]; exact h,
              fun hp => hp⟩
  | decline j =>
      simp only [applyInvOp, handleInvitationDecline]
      cases hj : mapGet st.invitations j with
      | none => exact ⟨inv, h, fun hp => hp⟩
      | some invj =>
          by_cases hij : i = j
          · subst hij
            rw [h] at hj
            simp only [Option.some.injEq] at hj
            subst hj
            refine ⟨{ inv with status := InvStatus.declined },
              mapGet_mapSet_self st.invitations i _, ?_⟩
            intro hp
            simp at hp
          · exact ⟨inv, by rw [mapGet_mapSet_ne _ _ _ _ hij]; exact h,
              fun hp => hp⟩
  | sweep now =>
      simp only [applyInvOp, handleSweep]
      by_cases hexp : inv.expiresAt < now
      · refine ⟨{ inv with status := InvStatus.expired }, ?_, ?_⟩
        · rw [mapGet_sweepInvs, h]
          simp [hexp]
        · intro hp
          simp at hp
      · refine ⟨inv, ?_, fun hp => hp⟩
        rw [mapGet_sweepInvs, h]
        simp [hexp]

/-- C2 as stated is false on the code: `handleInvitationAccept` never checks
the current status, so an invitation that has already reached the terminal
status `declined` is moved to `accepted` by a later `invitation_accept` —
the status leaves a terminal value. -/
theorem C2_counterexample :
    (mapGet (applyInvOp
        ⟨[], [("i1", ⟨"i1", "A", "Alice", "B", "hi there",
                      InvStatus.declined, 0, 1000, none⟩)], []⟩
        (InvOp.accept "i1")).invitations "i1").map Invitation.status =
      some InvStatus.accepted := by decide

/-- C2 amended: under every sequence of `invitation_accept`,
`invitation_decline` and sweeper-tick operations an invitation present in
the store stays present, and its status never returns to `pending` — but
terminal statuses are not sticky: accept sets `accepted` and decline sets
`declined` whatever the current status is, and the sweeper sets `expired`
on any invitation past its expiry regardless of its status. -/
theorem C2_status_never_returns_to_pending (st : ServerState)
    (ops : List InvOp) (i : String) (inv : Invitation)
    (h : mapGet st.invitations i = some inv) :
    ∃ inv', mapGet (applyInvOps st ops).invitations i = some inv' ∧
      (inv'.status = InvStatus.pending → inv.status = InvStatus.pending) := by
  induction ops generalizing st inv with
  | nil => exact ⟨inv, h, fun hp => hp⟩
  | cons op rest ih =>
      obtain ⟨inv₁, h₁, him₁⟩ := applyInvOp_presence_step st op i inv h
      obtain ⟨inv', h', him'⟩ := ih (applyInvOp st op) inv₁ h₁
      exact ⟨inv', h', fun hp => him₁ (him' hp)⟩

/-- Witness for the amended C2 at a concrete input: a pending invitation run
through an accept of another id and two sweeper ticks. -/
theorem C2_status_never_returns_to_pending_witness :
    mapGet (ServerState.invitations
        ⟨[], [("i1", ⟨"i1", "A", "Alice", "B", "hi there",
                      InvStatus.pending, 0, 1000, none⟩)], []⟩) "i1" =
      some ⟨"i1", "A", "Alice", "B", "hi there",
            InvStatus.pending, 0, 1000, none⟩ ∧
    ∃ inv', mapGet (applyInvOps
        ⟨[], [("i1", ⟨"i1", "A", "Alice", "B", "hi there",
                      InvStatus.pending, 0, 1000, none⟩)], []⟩
        [InvOp.accept "other", InvOp.sweep 500, InvOp.sweep 2000]).invitations
          "i1" = some inv' ∧
      (inv'.status = InvStatus.pending →
        Invitation.status (⟨"i1", "A", "Alice", "B", "hi there",
                           InvStatus.pending, 0, 1000, none⟩ : Invitation) =
          InvStatus.pending) :=
  ⟨by decide,
   C2_status_never_returns_to_pending
     ⟨[], [("i1", ⟨"i1", "A", "Alice", "B", "hi there",
                   InvStatus.pending, 0, 1000, none⟩)], []⟩
     [InvOp.accept "other", InvOp.sweep 500, InvOp.sweep 2000] "i1"
     ⟨"i1", "A", "Alice", "B", "hi there", InvStatus.pending, 0, 1000, none⟩
     (by decide)⟩

/-! ## Claim C3: the expiry sweeper -/

/-- C3 exhibits a code bug: the sweeper's guard (server.js:352) tests only
`expiresAt < now`, never `status === 'pending'`, so an invitation whose
status is already `expired` (terminal after a previous tick) is swept again:
its status is rewritten and `invitation_response` is re-sent to sender and
recipient on this tick too — and on every later tick, since invitations are
never removed.  The claim (and spec §4.3) say only `pending` invitations are
considered and the parties are notified exactly once. -/
theorem C3_sweeper_renotifies_nonpending :
    (handleSweep
        ⟨[("A", 0), ("B", 1)],
         [("i1", ⟨"i1", "A", "Alice", "B", "hi there",
                  InvStatus.expired, 0, 1000, none⟩)], []⟩ 2000).2 =
      [("A", SEvent.invitationResponse
          ⟨"i1", "A", "Alice", "B", "hi there", InvStatus.expired, 0, 1000, none⟩),
       ("B", SEvent.invitationResponse
          ⟨"i1", "A", "Alice", "B", "hi there", InvStatus.expired, 0, 1000, none⟩)] := by
  decide

/-! ## Claim C6: `invitation_accept` on an unknown id -/

/-- C6: an `invitation_accept` whose id is not in the store produces exactly
one `error` reply to the calling connection and nothing else — the state is
returned unchanged and no event goes to any other connection. -/
theorem C6_accept_unknown_id_error_only (st : ServerState) (i : String)
    (h : mapGet st.invitations i = none) :
    handleInvitationAccept st i =
      ⟨st, [], [SEvent.errorEv "Invitation not found"]⟩ := by
  simp only [handleInvitationAccept, h]

/-- Witness for C6 at a concrete input. -/
theorem C6_accept_unknown_id_error_only_witness :
    mapGet (ServerState.invitations ⟨[("A", 0)], [], []⟩) "nope" = none ∧
    handleInvitationAccept ⟨[("A", 0)], [], []⟩ "nope" =
      ⟨⟨[("A", 0)], [], []⟩, [], [SEvent.errorEv "Invitation not found"]⟩ :=
  ⟨by decide,
   C6_accept_unknown_id_error_only ⟨[("A", 0)], [], []⟩ "nope" (by decide)⟩

/-! ## Claim C10: `invitation_send` overwrites duplicates silently -/

/-- C10: `handleInvitationSend` never looks at the store before writing: when
an invitation with the same id already exists — in any status, terminal or
not — the stored record is unconditionally replaced by a fresh `pending`
record expiring at `now + ttl`, `invitation_received` goes to the recipient
(when registered), and no error reply is produced. -/
theorem C10_invitation_send_overwrites (ttl : Nat) (st : ServerState)
    (now : Nat) (d : InvitationSendData) (old : Invitation)
    (h : mapGet st.invitations d.id = some old) :
    mapGet (handleInvitationSend ttl st now d).state.invitations d.id =
      some (builtInvitation ttl now d) ∧
    (builtInvitation ttl now d).status = InvStatus.pending ∧
    (builtInvitation ttl now d).expiresAt = now + ttl ∧
    (handleInvitationSend ttl st now d).replies = [] ∧
    (mapHas st.clients d.recipientId = true →
      (handleInvitationSend ttl st now d).broadcasts =
        [(d.recipientId, SEvent.invitationReceived (builtInvitation ttl now d))]) := by
  refine ⟨?_, rfl, rfl, rfl, ?_⟩
  · simp only [handleInvitationSend]
    exact mapGet_mapSet_self st.invitations (builtInvitation ttl now d).id _
  · intro hc
    simp only [handleInvitationSend, broadcastToUser, builtInvitation]
    rw [if_pos hc]

/-- Witness for C10 at a concrete input: the stored invitation is in the
terminal status `accepted` and is silently replaced. -/
theorem C10_invitation_send_overwrites_witness :
    mapGet (ServerState.invitations
        ⟨[("B", 1)],
         [("i1", ⟨"i1", "A", "Alice", "B", "old text",
                  InvStatus.accepted, 0, 1000, none⟩)], []⟩) "i1" =
      some ⟨"i1", "A", "Alice", "B", "old text",
            InvStatus.accepted, 0, 1000, none⟩ ∧
    (mapGet (handleInvitationSend 500
        ⟨[("B", 1)],
         [("i1", ⟨"i1", "A", "Alice", "B", "old text",
                  InvStatus.accepted, 0, 1000, none⟩)], []⟩ 7000
        ⟨"i1", "A", "Alice", "B", "new text", none⟩).state.invitations "i1" =
      some (builtInvitation 500 7000 ⟨"i1", "A", "Alice", "B", "new text", none⟩) ∧
    (builtInvitation 500 7000 ⟨"i1", "A", "Alice", "B", "new text", none⟩).status =
      InvStatus.pending ∧
    (builtInvitation 500 7000 ⟨"i1", "A", "Alice", "B", "new text", none⟩).expiresAt =
      7000 + 500 ∧
    (handleInvitationSend 500
        ⟨[("B", 1)],
         [("i1", ⟨"i1", "A", "Alice", "B", "old text",
                  InvStatus.accepted, 0, 1000, none⟩)], []⟩ 7000
        ⟨"i1", "A", "Alice", "B", "new text", none⟩).replies = [] ∧
    (mapHas (ServerState.clients
        ⟨[("B", 1)],
         [("i1", ⟨"i1", "A", "Alice", "B", "old text",
                  InvStatus.accepted, 0, 1000, none⟩)], []⟩) "B" = true →
      (handleInvitationSend 500
          ⟨[("B", 1)],
           [("i1", ⟨"i1", "A", "Alice", "B", "old text",
                    InvStatus.accepted, 0, 1000, none⟩)], []⟩ 7000
          ⟨"i1", "A", "Alice", "B", "new text", none⟩).broadcasts =
        [("B", SEvent.invitationReceived
            (builtInvitation 500 7000 ⟨"i1", "A", "Alice", "B", "new text", none⟩))])) :=
  ⟨by decide,
   C10_invitation_send_overwrites 500
     ⟨[("B", 1)],
      [("i1", ⟨"i1", "A", "Alice", "B", "old text",
               InvStatus.accepted, 0, 1000, none⟩)], []⟩ 7000
     ⟨"i1", "A", "Alice", "B", "new text", none⟩
     ⟨"i1", "A", "Alice", "B", "old text", InvStatus.accepted, 0, 1000, none⟩
     (by decide)⟩

/-! ## Message-read lemmas -/

theorem findIdxMsg_spec (mid : String) (msgs : List Message) (i : Nat)
    (m : Message) (h : findIdxMsg mid msgs = some (i, m)) :
    msgs[i]? = some m ∧ m.id = mid := by
  induction msgs generalizing i with
  | nil => simp [findIdxMsg] at h
  | cons m0 ms ih =>
      by_cases h0 : m0.id = mid
      · simp only [findIdxMsg, if_pos h0] at h
        simp only [Option.some.injEq, Prod.mk.injEq] at h
        obtain ⟨hi, hm⟩ := h
        subst hi
        subst hm
        exact ⟨by simp, h0⟩
      · simp only [findIdxMsg, if_neg h0] at h
        cases hrec : findIdxMsg mid ms with
        | none => rw [hrec] at h; simp at h
        | some p =>
            obtain ⟨j, m'⟩ := p
            rw [hrec] at h
            simp only [Option.map_some', Option.some.injEq, Prod.mk.injEq] at h
            obtain ⟨hi, hm⟩ := h
            subst hm
            obtain ⟨hg, hid⟩ := ih j hrec
            refine ⟨?_, hid⟩
            rw [← hi]
            simpa using hg

theorem findIdxMsg_eq_none (mid : String) (msgs : List Message)
    (h : ∀ m ∈ msgs, m.id ≠ mid) : findIdxMsg mid msgs = none := by
  induction msgs with
  | nil => rfl
  | cons m0 ms ih =>
      simp only [findIdxMsg, if_neg (h m0 (List.mem_cons_self m0 ms))]
      rw [ih (fun m hm => h m (List.mem_cons_of_mem m0 hm))]
      rfl

theorem findIdxMsg_set (mid : String) (msgs : List Message) (i : Nat)
    (m m' : Message) (h : findIdxMsg mid msgs = some (i, m))
    (h' : m'.id = mid) : findIdxMsg mid (msgs.set i m') = some (i, m') := by
  induction msgs generalizing i with
  | nil => simp [findIdxMsg] at h
  | cons m0 ms ih =>
      by_cases h0 : m0.id = mid
      · simp only [findIdxMsg, if_pos h0, Option.some.injEq, Prod.mk.injEq] at h
        obtain ⟨hi, _⟩ := h
        subst hi
        simp [List.set, findIdxMsg, h']
      · simp only [findIdxMsg, if_neg h0] at h
        cases hrec : findIdxMsg mid ms with
        | none => rw [hrec] at h; simp at h
        | some p =>
            obtain ⟨j, mj⟩ := p
            rw [hrec] at h
            simp only [Option.map_some', Option.some.injEq, Prod.mk.injEq] at h
            obtain ⟨hi, hm⟩ := h
            subst hm
            rw [← hi]
            simp only [List.set, findIdxMsg, if_neg h0, ih j hrec]
            rfl

theorem list_set_getElem_same {α : Type} (l : List α) (i : Nat) (a : α)
    (h : l[i]? = some a) : l.set i a = l := by
  induction l generalizing i with
  | nil => simp at h
  | cons x xs ih =>
      cases i with
      | zero =>
          simp at h
          simp [List.set, h]
      | succ j =>
          simp at h
          simp [List.set, ih j h]

theorem msg_set_read_self (m : Message) (h : m.status = MsgStatus.read) :
    { m with status := MsgStatus.read } = m := by
  cases m
  simp_all

/-- When nothing matches, the read handler's scan leaves the store as is. -/
theorem markReadStore_noMatch (mid : String)
    (l : List (String × List Message))
    (h : ∀ p ∈ l, ∀ m ∈ p.2, m.id ≠ mid) : markReadStore mid l = l := by
  induction l with
  | nil => rfl
  | cons hd tl ih =>
      obtain ⟨cid, msgs⟩ := hd
      have hnone : findIdxMsg mid msgs = none :=
        findIdxMsg_eq_none mid msgs (h (cid, msgs) (List.mem_cons_self _ _))
      simp only [markReadStore, hnone]
      rw [ih (fun p hp => h p (List.mem_cons_of_mem _ hp))]

/-- When nothing matches, the scan finds no message. -/
theorem foundMsgOrig_noMatch (mid : String)
    (l : List (String × List Message))
    (h : ∀ p ∈ l, ∀ m ∈ p.2, m.id ≠ mid) : foundMsgOrig mid l = none := by
  induction l with
  | nil => rfl
  | cons hd tl ih =>
      obtain ⟨cid, msgs⟩ := hd
      have hnone : findIdxMsg mid msgs = none :=
        findIdxMsg_eq_none mid msgs (h (cid, msgs) (List.mem_cons_self _ _))
      simp only [foundMsgOrig, hnone]
      exact ih (fun p hp => h p (List.mem_cons_of_mem _ hp))

/-- Re-marking a message that is already `read` rewrites it with the value it
already has: the store is unchanged. -/
theorem markReadStore_of_read (mid : String)
    (l : List (String × List Message)) (m : Message)
    (h : foundMsgOrig mid l = some m) (hr : m.status = MsgStatus.read) :
    markReadStore mid l = l := by
  induction l with
  | nil => rfl
  | cons hd tl ih =>
      obtain ⟨cid, msgs⟩ := hd
      cases hf : findIdxMsg mid msgs with
      | none =>
          simp only [foundMsgOrig, hf] at h
          simp only [markReadStore, hf]
          rw [ih h]
      | some p =>
          obtain ⟨i, m0⟩ := p
          simp only [foundMsgOrig, hf, Option.some.injEq] at h
          subst h
          simp only [markReadStore, hf]
          rw [msg_set_read_self m0 hr,
              list_set_getElem_same msgs i m0 (findIdxMsg_spec mid msgs i m0 hf).1]

/-- After the read handler's update, the first match carries status `read`. -/
theorem foundMsgOrig_markReadStore (mid : String)
    (l : List (String × List Message)) :
    foundMsgOrig mid (markReadStore mid l) =
      (foundMsgOrig mid l).map (fun m => { m with status := MsgStatus.read }) := by
  induction l with
  | nil => rfl
  | cons hd tl ih =>
      obtain ⟨cid, msgs⟩ := hd
      cases hf : findIdxMsg mid msgs with
      | none =>
          simp only [markReadStore, hf, foundMsgOrig, ih]
      | some p =>
          obtain ⟨i, m0⟩ := p
          have hid : ({ m0 with status := MsgStatus.read } : Message).id = mid := by
            have := (findIdxMsg_spec mid msgs i m0 hf).2
            simpa using this
          simp only [markReadStore, hf, foundMsgOrig,
            findIdxMsg_set mid msgs i m0 _ hf hid, Option.map_some']

/-! ## Claim C5: `message_read` — first match, silent absorption -/

/-- C5: on a `message_read`, the handler scans every conversation's
sequence; when some message matches, the first match (conversation
iteration order, then index order) has its status set to `read` and exactly
one `message_status` event goes to that message's original sender (who is
registered); when nothing matches, the handler returns the state untouched,
emits no event and reports no error to the caller — silent absorption,
unlike the invitation not-found path. -/
theorem C5_message_read_scan (st : ServerState) (mid : String) :
    ((∀ p ∈ st.messages, ∀ m ∈ p.2, m.id ≠ mid) →
      handleMessageRead st mid = ⟨st, [], []⟩) ∧
    (∀ m, foundMsgOrig mid st.messages = some m →
      foundMsgOrig mid (handleMessageRead st mid).state.messages =
        some { m with status := MsgStatus.read } ∧
      (mapHas st.clients m.senderId = true →
        (handleMessageRead st mid).broadcasts =
          [(m.senderId, SEvent.messageStatus mid MsgStatus.read)] ∧
        (handleMessageRead st mid).replies = [])) := by
  constructor
  · intro h
    simp only [handleMessageRead, foundMsgOrig_noMatch mid st.messages h,
      markReadStore_noMatch mid st.messages h]
  · intro m hm
    constructor
    · simp only [handleMessageRead, hm]
      rw [foundMsgOrig_markReadStore, hm]
      rfl
    · intro hc
      simp only [handleMessageRead, hm, broadcastToUser]
      rw [if_pos hc]
      exact ⟨rfl, trivial⟩

/-- Witness for C5 at a concrete input: a store with no matching message is
silently absorbed. -/
theorem C5_message_read_scan_witness :
    (∀ p ∈ (ServerState.messages
        ⟨[("A", 0)],
         [],
         [("c1", [⟨"m1", "A", "B", "hi", "text", 5, MsgStatus.sent,
                   false, none, none, none⟩])]⟩),
       ∀ m ∈ p.2, m.id ≠ "zzz") ∧
    handleMessageRead
        ⟨[("A", 0)],
         [],
         [("c1", [⟨"m1", "A", "B", "hi", "text", 5, MsgStatus.sent,
                   false, none, none, none⟩])]⟩ "zzz" =
      ⟨⟨[("A", 0)],
        [],
        [("c1", [⟨"m1", "A", "B", "hi", "text", 5, MsgStatus.sent,
                  false, none, none, none⟩])]⟩, [], []⟩ :=
  ⟨by decide,
   (C5_message_read_scan
      ⟨[("A", 0)],
       [],
       [("c1", [⟨"m1", "A", "B", "hi", "text", 5, MsgStatus.sent,
                 false, none, none, none⟩])]⟩ "zzz").1 (by decide)⟩

/-! ## Claim C7: re-marking an already-read message -/

/-- C7 as stated is false on the code: `handleMessageRead` does not test the
current status, so a `message_read` for a message that is already `read`
still sends the sender one more `message_status` event (here the sender "A"
is registered, and the single message of the store is already `read`). -/
theorem C7_counterexample :
    (handleMessageRead
        ⟨[("A", 0), ("B", 1)],
         [],
         [("c1", [⟨"m1", "A", "B", "hi", "text", 5, MsgStatus.read,
                   false, none, none, none⟩])]⟩ "m1").broadcasts =
      [("A", SEvent.messageStatus "m1" MsgStatus.read)] := by decide

/-- C7 amended: the stored status moves `sent → read` at most once — once a
message is `read`, a repeated `message_read` for its id leaves the entire
state unchanged — but each repeated call still emits one more
`message_status` event to the original sender (when registered); duplicate
notifications are not suppressed. -/
theorem C7_reread_state_fixed_but_renotifies (st : ServerState) (mid : String)
    (m : Message) (h : foundMsgOrig mid st.messages = some m)
    (hr : m.status = MsgStatus.read) :
    (handleMessageRead st mid).state = st ∧
    (mapHas st.clients m.senderId = true →
      (handleMessageRead st mid).broadcasts =
        [(m.senderId, SEvent.messageStatus mid MsgStatus.read)]) := by
  constructor
  · simp only [handleMessageRead, h, markReadStore_of_read mid st.messages m h hr]
  · intro hc
    simp only [handleMessageRead, h, broadcastToUser]
    rw [if_pos hc]

/-- Witness for the amended C7 at a concrete input. -/
theorem C7_reread_state_fixed_but_renotifies_witness :
    foundMsgOrig "m1" (ServerState.messages
        ⟨[("A", 0), ("B", 1)],
         [],
         [("c1", [⟨"m1", "A", "B", "hi", "text", 5, MsgStatus.read,
                   false, none, none, none⟩])]⟩) =
      some ⟨"m1", "A", "B", "hi", "text", 5, MsgStatus.read,
            false, none, none, none⟩ ∧
    (handleMessageRead
        ⟨[("A", 0), ("B", 1)],
         [],
         [("c1", [⟨"m1", "A", "B", "hi", "text", 5, MsgStatus.read,
                   false, none, none, none⟩])]⟩ "m1").state =
      ⟨[("A", 0), ("B", 1)],
       [],
       [("c1", [⟨"m1", "A", "B", "hi", "text", 5, MsgStatus.read,
                 false, none, none, none⟩])]⟩ :=
  ⟨by decide,
   (C7_reread_state_fixed_but_renotifies
      ⟨[("A", 0), ("B", 1)],
       [],
       [("c1", [⟨"m1", "A", "B", "hi", "text", 5, MsgStatus.read,
                 false, none, none, none⟩])]⟩ "m1"
      ⟨"m1", "A", "B", "hi", "text", 5, MsgStatus.read, false, none, none, none⟩
      (by decide) (by decide)).1⟩

/-! ## Claim C4: `message_send` -/

/-- C4: `handleMessageSend` builds a message with status `sent`, appends it
to the conversation bucket keyed by
`generateConversationId(senderId, recipientId)` — created as the empty
sequence when absent — leaves every other conversation untouched, and sends
exactly one `message_received` event, to the registered recipient only; the
sender's session receives no echo and the caller gets no direct reply. -/
theorem C4_message_send (st : ServerState) (now : Nat) (d : MessageSendData)
    (hrec : mapHas st.clients d.recipientId = true)
    (hne : d.senderId ≠ d.recipientId) :
    (builtMessage now d).status = MsgStatus.sent ∧
    mapGet (handleMessageSend st now d).state.messages
        (generateConversationId d.senderId d.recipientId) =
      some ((mapGet st.messages
              (generateConversationId d.senderId d.recipientId)).getD [] ++
            [builtMessage now d]) ∧
    (∀ c, c ≠ generateConversationId d.senderId d.recipientId →
      mapGet (handleMessageSend st now d).state.messages c =
        mapGet st.messages c) ∧
    (handleMessageSend st now d).broadcasts =
      [(d.recipientId, SEvent.messageReceived (builtMessage now d))] ∧
    (∀ ev, (d.senderId, ev) ∉ (handleMessageSend st now d).broadcasts) ∧
    (handleMessageSend st now d).replies = [] := by
  refine ⟨rfl, ?_, ?_, ?_, ?_, rfl⟩
  · simp only [handleMessageSend]
    exact mapGet_mapSet_self st.messages _ _
  · intro c hc
    simp only [handleMessageSend]
    exact mapGet_mapSet_ne st.messages _ c _ hc
  · simp only [handleMessageSend, broadcastToUser, builtMessage]
    rw [if_pos hrec]
  · intro ev hmem
    simp only [handleMessageSend, broadcastToUser, builtMessage] at hmem
    rw [if_pos hrec] at hmem
    simp only [List.mem_singleton, Prod.mk.injEq] at hmem
    exact hne hmem.1

/-- Witness for C4 at a concrete input (the spec's §8 scenario:
`{id:"m1", senderId:"A", recipientId:"B", content:"hi"}` with "B"
registered). -/
theorem C4_message_send_witness :
    mapHas (ServerState.clients ⟨[("A", 0), ("B", 1)], [], []⟩) "B" = true ∧
    ("A" : String) ≠ "B" ∧
    (handleMessageSend ⟨[("A", 0), ("B", 1)], [], []⟩ 5
        ⟨"m1", "A", "B", "hi", none, none, none, none⟩).broadcasts =
      [("B", SEvent.messageReceived
          (builtMessage 5 ⟨"m1", "A", "B", "hi", none, none, none, none⟩))] :=
  ⟨by decide, by decide,
   (C4_message_send ⟨[("A", 0), ("B", 1)], [], []⟩ 5
      ⟨"m1", "A", "B", "hi", none, none, none, none⟩
      (by decide) (by decide)).2.2.2.1⟩

/-! ## Presence fan-out lemmas -/

theorem broadcastToUsers_all_registered (clients : List (String × Nat))
    (ids : List String) (ev : SEvent)
    (h : ∀ k ∈ ids, mapHas clients k = true) :
    broadcastToUsers clients ids ev = ids.map (fun k => (k, ev)) := by
  induction ids with
  | nil => rfl
  | cons x xs ih =>
      simp only [broadcastToUsers, broadcastToUser,
        if_pos (h x (List.mem_cons_self x xs)), List.map_cons]
      rw [ih (fun k hk => h k (List.mem_cons_of_mem x hk))]
      rfl

theorem count_pair_map (b : String) (ev : SEvent) (ids : List String) :
    List.count (b, ev) (ids.map (fun k => (k, ev))) = List.count b ids := by
  induction ids with
  | nil => rfl
  | cons x xs ih =>
      simp only [List.map_cons, List.count_cons, ih]
      congr 1
      by_cases hx : x = b
      · subst hx
        simp
      · simp [hx]

/-! ## Claim C8: presence fan-out on disconnect -/

/-- C8: when the connection authenticated as `s` closes, every session that
is still registered afterwards receives exactly one `contact_offline` event
carrying `s` if a conversation bucket between it and `s` exists, and no
event at all otherwise — so pending invitees and never-messaged sessions
receive nothing; moreover every event the close handler emits is such a
`contact_offline`. -/
theorem C8_disconnect_presence (st : ServerState) (s b : String) (c : Nat)
    (hnd : (mapKeys st.clients).Nodup)
    (hb : mapGet (mapDelete st.clients s) b = some c) :
    List.count (b, SEvent.contactOffline s) (handleClose st (some s)).2 =
      (if mapHas st.messages (generateConversationId s b) then 1 else 0) ∧
    ∀ e ∈ (handleClose st (some s)).2, e.2 = SEvent.contactOffline s := by
  simp only [handleClose]
  have hreg : ∀ k ∈ (mapKeys (mapDelete st.clients s)).filter
      (fun k => mapHas st.messages (generateConversationId s k)),
      mapHas (mapDelete st.clients s) k = true := by
    intro k hk
    exact mapHas_of_mem_keys (List.mem_filter.mp hk).1
  rw [broadcastToUsers_all_registered _ _ _ hreg]
  constructor
  · rw [count_pair_map]
    have hndf : ((mapKeys (mapDelete st.clients s)).filter
        (fun k => mapHas st.messages (generateConversationId s k))).Nodup :=
      (keys_nodup_mapDelete st.clients s hnd).filter _
    by_cases hp : mapHas st.messages (generateConversationId s b) = true
    · rw [if_pos hp]
      exact List.count_eq_one_of_mem hndf
        (List.mem_filter.mpr ⟨mem_keys_of_mapGet hb, hp⟩)
    · rw [if_neg hp]
      refine List.count_eq_zero_of_not_mem ?_
      intro hmem
      exact hp (List.mem_filter.mp hmem).2
  · intro e he
    obtain ⟨k, _, hk⟩ := List.mem_map.mp he
    rw [← hk]

/-- Witness for C8 at a concrete input. -/
theorem C8_disconnect_presence_witness :
    (mapKeys (ServerState.clients ⟨[("A", 0), ("B", 1)], [], []⟩)).Nodup ∧
    mapGet (mapDelete (ServerState.clients
        ⟨[("A", 0), ("B", 1)], [], []⟩) "A") "B" = some 1 ∧
    List.count ("B", SEvent.contactOffline "A")
        (handleClose ⟨[("A", 0), ("B", 1)], [], []⟩ (some "A")).2 =
      (if mapHas (ServerState.messages ⟨[("A", 0), ("B", 1)], [], []⟩)
          (generateConversationId "A" "B") then 1 else 0) :=
  ⟨by decide, by decide,
   (C8_disconnect_presence ⟨[("A", 0), ("B", 1)], [], []⟩ "A" "B" 1
      (by decide) (by decide)).1⟩

/-! ## Claim C9: the connection registry -/

/-- C9: the registry keeps at most one handle per session identifier: a
successful `auth` binds the session to the new connection handle —
last-write-wins over any prior binding, which the registry does not close,
merely forget — and preserves key uniqueness; after the close handler runs
for the connection registered as `s`, lookup of `s` is absent, and key
uniqueness is again preserved. -/
theorem C9_registry_single_binding (st : ServerState) (ws : Nat) (s : String)
    (hs : s ≠ "") (hnd : (mapKeys st.clients).Nodup) :
    mapGet (handleAuth st ws s).state.clients s = some ws ∧
    (mapKeys (handleAuth st ws s).state.clients).Nodup ∧
    mapGet (handleClose st (some s)).1.clients s = none ∧
    (mapKeys (handleClose st (some s)).1.clients).Nodup := by
  refine ⟨?_, ?_, ?_, ?_⟩
  · simp only [handleAuth, if_neg hs]
    exact mapGet_mapSet_self st.clients s ws
  · simp only [handleAuth, if_neg hs]
    exact keys_nodup_mapSet st.clients s ws hnd
  · simp only [handleClose]
    exact mapGet_mapDelete_self st.clients s hnd
  · simp only [handleClose]
    exact keys_nodup_mapDelete st.clients s hnd

/-- Witness for C9 at a concrete input: "B" re-authenticates over an
existing binding and the new handle wins. -/
theorem C9_registry_single_binding_witness :
    ("B" : String) ≠ "" ∧
    (mapKeys (ServerState.clients ⟨[("A", 0), ("B", 1)], [], []⟩)).Nodup ∧
    mapGet (handleAuth ⟨[("A", 0), ("B", 1)], [], []⟩ 7 "B").state.clients "B" =
      some 7 :=
  ⟨by decide, by decide,
   (C9_registry_single_binding ⟨[("A", 0), ("B", 1)], [], []⟩ 7 "B"
      (by decide) (by decide)).1⟩

end Askless
